import Mathlib

/-! Verification development for the panel docking and capture controller in
`src/panel.rs` of the StardustXR orbit repository.  Scalar distances and
sizes (`f32` in the source) are modelled as rationals; fallible external node
calls are modelled by oracle inputs (`Option` results, success booleans). -/

namespace Orbit

/-- Constant `PANEL_WIDTH` from `panel.rs` (0.1). -/
def PANEL_WIDTH : ℚ := 1/10

/-- Constant `PANEL_THICKNESS` from `panel.rs` (0.01). -/
def PANEL_THICKNESS : ℚ := 1/100

/-- Constant `MAX_ACCEPT_DISTANCE` from `panel.rs` (0.05). -/
def MAX_ACCEPT_DISTANCE : ℚ := 1/20

/-- Type of one successful sample: acceptor uid paired with its absolute distance. -/
abbrev Sample := String × ℚ

/-- Reduction step of the winner selection in `update_distances`:
`|(ak, av), (bk, bv)| if av > bv { (bk, bv) } else { (ak, av) }`. -/
def reduceStep (a b : Sample) : Sample :=
  if a.2 > b.2 then b else a

/-- Successful samples of a pass: the snapshot keys zipped with the per-acceptor
query results, the absolute value applied to each returned distance, failed
queries dropped.  Mirrors
`keys.zip(distances.map(|d| d.map(|d| d.abs()))).filter_map(|(k, v)| Some((k, v.ok()?)))`
with query results modelled as `Option` (`none` = the query failed). -/
def successes (keys : List String) (dists : List (Option ℚ)) : List Sample :=
  (keys.zip (dists.map (Option.map (fun d => |d|)))).filterMap
    (fun kv => kv.2.map (fun v => (kv.1, v)))

/-- Winner selection of `update_distances`: Rust `Iterator::reduce` folds the
tail over the first element of `successes`, yielding `none` when there is no
successful sample. -/
def selectWinner (keys : List String) (dists : List (Option ℚ)) : Option Sample :=
  match successes keys dists with
  | [] => none
  | a :: t => some (t.foldl reduceStep a)

/-- Linear range mapping of the map-range crate used in the spawned task:
`v.map_range(a..b, c..d)`. -/
def map_range (v a b c d : ℚ) : ℚ :=
  c + (v - a) * (d - c) / (b - a)

/-- Edge-color command issued by the spawned task: either the neutral opaque
white `rgba_linear!(1.0, 1.0, 1.0, 1.0)`, or the magma gradient sampled at the
map-range position of the winning distance (the gradient itself is external and
clamps its argument internally; we record the queried position). -/
inductive EdgeColor where
  | neutralWhite : EdgeColor
  | gradient (t : ℚ) : EdgeColor
  deriving DecidableEq

/-- Observable effects of a completed sampling task: the edge color that was
set and the capture request issued, if any. -/
structure PassEffects where
  edgeColor : EdgeColor
  captureRequest : Option String
  deriving DecidableEq

/-- Outcome of one sampling pass: the dispatch returned early and spawned no
task; the task panicked (the `model_part("Edge").unwrap()` failed); or the task
completed with its effects. -/
inductive TaskOutcome where
  | notSpawned : TaskOutcome
  | panicked : TaskOutcome
  | completed (eff : PassEffects) : TaskOutcome
  deriving DecidableEq

/-- Body of the task spawned by `update_distances`.  Inputs: the snapshot keys,
the per-acceptor query results (`none` = failed), the `accept` flag, the
registry contents at completion time (the task's `acceptors` handle is a live
watch receiver, so `acceptors.borrow().get(&uid)` observes the registry as of
completion), whether the panel is captured at completion time, and whether the
`model_part("Edge")` lookup succeeds.  The closure captures no reference to the
panel's `captured` flag, so the outcome cannot depend on
`capturedAtCompletion`; `model_part("Edge").unwrap()` panics the task when that
lookup fails, in both the no-winner and the winner branch. -/
def passCompletion (keys : List String) (dists : List (Option ℚ)) (accept : Bool)
    (regAtCompletion : List String) (capturedAtCompletion : Bool)
    (edgePartOk : Bool) : TaskOutcome :=
  match selectWinner keys dists with
  | none =>
    if edgePartOk then
      .completed ⟨.neutralWhite, none⟩
    else .panicked
  | some (uid, distance) =>
    if edgePartOk then
      .completed ⟨.gradient (map_range distance (1/4) MAX_ACCEPT_DISTANCE 0 1),
        if accept ∧ distance < MAX_ACCEPT_DISTANCE ∧ uid ∈ regAtCompletion then
          some uid
        else none⟩
    else .panicked

/-- Dispatch part of `update_distances`: returns the spawned task's snapshot
(keys in registry iteration order, paired with the accept flag), or `none` when
no task is spawned (the panel is already captured, or the acceptor registry is
empty). -/
def update_distances (captured : Bool) (registry : List String) (accept : Bool) :
    Option (List String × Bool) :=
  if captured then none
  else if registry.isEmpty then none
  else some (registry, accept)

/-- Whole sampling pass: the synchronous dispatch followed, when a task was
spawned, by that task's completion under the given completion-time oracles. -/
def samplingPass (captured : Bool) (registry : List String) (accept : Bool)
    (dists : List (Option ℚ)) (regAtCompletion : List String)
    (capturedAtCompletion : Bool) (edgePartOk : Bool) : TaskOutcome :=
  match update_distances captured registry accept with
  | none => .notSpawned
  | some (keys, a) => passCompletion keys dists a regAtCompletion capturedAtCompletion edgePartOk

/-- Panel controller state: the `captured` flag together with the enabled flags
of the model and the grabbable (the `set_enabled` side effects of
`update_state` folded into state). -/
structure PanelState where
  captured : Bool
  modelEnabled : Bool
  grabEnabled : Bool
  deriving DecidableEq

/-- Method `update_state` from `panel.rs`: store the captured flag and set both
the model and the grabbable enabled exactly when not captured. -/
def update_state (st : PanelState) (captured : Bool) : PanelState :=
  { st with captured := captured, modelEnabled := !captured, grabEnabled := !captured }

/-- Per-frame inputs read from the grabbable: `grab_action().actor_acting()`,
`grab_action().actor_stopped()`, `linear_speed()`, and whether
`grabbable.update(info)` succeeds (its `Result`, which the source unwraps). -/
structure FrameInput where
  actorActing : Bool
  actorStopped : Bool
  linearSpeed : Option ℚ
  updateOk : Bool
  deriving DecidableEq

/-- Accept flag computed in `frame`:
`!grab_action().actor_acting() && linear_speed().is_some() || grab_action().actor_stopped()`
(Rust parses this as `(!acting && speed.is_some()) || stopped`). -/
def frameAccept (g : FrameInput) : Bool :=
  (!g.actorActing && g.linearSpeed.isSome) || g.actorStopped

/-- Method `frame` from `panel.rs`: if captured, return immediately (the
grabbable is not updated, so its result cannot panic, and nothing is
dispatched); otherwise `grabbable.update(info).unwrap()` — modelled as the
whole tick evaluating to `none` (a panic) when the update fails — and then
dispatch `update_distances` with the computed accept flag.  The state is never
modified by a tick. -/
def frame (st : PanelState) (registry : List String) (g : FrameInput) :
    Option (PanelState × Option (List String × Bool)) :=
  if st.captured then some (st, none)
  else if g.updateOk then some (st, update_distances st.captured registry (frameAccept g))
  else none

/-- Spatial node references appearing in the release handler. -/
inductive NodeRef where
  | contentParent : NodeRef
  | panelItem : NodeRef
  deriving DecidableEq

/-- Transform commands issued by `released`; the written transform is always
`Transform::identity()`. -/
inductive TransformEffect where
  | setRelativeTransformIdentity (node target : NodeRef) : TransformEffect
  | setLocalTransformIdentity (node : NodeRef) : TransformEffect
  deriving DecidableEq

/-- Spatial parent of the panel item, established once in `PanelItemUI::new` by
`set_spatial_parent_in_place(grabbable.content_parent())`: the panel's local
transform is relative to the grabbable's content parent (its interaction
handle). -/
def panel_spatial_parent : NodeRef := .contentParent

/-- Handler `released` from `panel.rs`: `update_state(false)` (re-enabling
model and grabbable), then set the content parent's transform relative to the
panel item to identity, then set the panel item's local transform to
identity. -/
def released (st : PanelState) : PanelState × List TransformEffect :=
  (update_state st false,
   [.setRelativeTransformIdentity .contentParent .panelItem,
    .setLocalTransformIdentity .panelItem])

/-- Visual scale and bounding-field size of a panel. -/
structure SizeState where
  modelScale : ℚ × ℚ × ℚ
  fieldSize : ℚ × ℚ × ℚ
  deriving DecidableEq

/-- Method `on_resize` from `panel.rs`: `aspect_ratio = size.y / size.x`,
`size = [PANEL_WIDTH, PANEL_WIDTH * aspect_ratio, PANEL_THICKNESS]`, applied to
both the model's local scale and the box field's size.  The previous state is
not consulted. -/
def on_resize (_st : SizeState) (w h : ℕ) : SizeState :=
  let aspect_ratio : ℚ := (h : ℚ) / (w : ℚ)
  let size : ℚ × ℚ × ℚ := (PANEL_WIDTH, PANEL_WIDTH * aspect_ratio, PANEL_THICKNESS)
  { modelScale := size, fieldSize := size }

/-- Folding `reduceStep` over a list keeps the first element attaining the
minimal distance: the result is a member, it is a lower bound, and everything
strictly before its occurrence has strictly larger distance. -/
lemma foldl_reduceStep_spec (t : List Sample) :
    ∀ a : Sample,
      t.foldl reduceStep a ∈ a :: t ∧
      (∀ x ∈ a :: t, (t.foldl reduceStep a).2 ≤ x.2) ∧
      ∃ l₁ l₂, a :: t = l₁ ++ (t.foldl reduceStep a) :: l₂ ∧
        ∀ x ∈ l₁, (t.foldl reduceStep a).2 < x.2 := by
  induction t with
  | nil =>
    intro a
    refine ⟨List.mem_singleton_self a, ?_, [], [], rfl, by simp⟩
    intro x hx
    rw [List.mem_singleton] at hx
    rw [hx]
    exact le_rfl
  | cons b t ih =>
    intro a
    simp only [List.foldl_cons]
    by_cases h : a.2 > b.2
    · have hr : reduceStep a b = b := by simp [reduceStep, h]
      rw [hr]
      obtain ⟨hmem, hmin, l₁, l₂, hdec, hstrict⟩ := ih b
      refine ⟨List.mem_cons_of_mem a hmem, ?_, a :: l₁, l₂, ?_, ?_⟩
      · intro x hx
        rcases List.mem_cons.mp hx with hxa | hxt
        · rw [hxa]
          exact le_trans (hmin b (List.mem_cons_self b t)) (le_of_lt h)
        · exact hmin x hxt
      · rw [List.cons_append, ← hdec]
      · intro x hx
        rcases List.mem_cons.mp hx with hxa | hxl
        · rw [hxa]
          exact lt_of_le_of_lt (hmin b (List.mem_cons_self b t)) h
        · exact hstrict x hxl
    · have hr : reduceStep a b = a := by simp [reduceStep, h]
      rw [hr]
      have hab : a.2 ≤ b.2 := le_of_not_lt h
      obtain ⟨hmem, hmin, l₁, l₂, hdec, hstrict⟩ := ih a
      have hrle : (t.foldl reduceStep a).2 ≤ a.2 := hmin a (List.mem_cons_self a t)
      generalize hg : List.foldl reduceStep a t = r at hmem hmin hdec hstrict hrle ⊢
      refine ⟨?_, ?_, ?_⟩
      · rcases List.mem_cons.mp hmem with hra | hrt
        · rw [hra]; exact List.mem_cons_self a (b :: t)
        · exact List.mem_cons_of_mem a (List.mem_cons_of_mem b hrt)
      · intro x hx
        rcases List.mem_cons.mp hx with hxa | hx'
        · rw [hxa]; exact hrle
        rcases List.mem_cons.mp hx' with hxb | hxt
        · rw [hxb]; exact le_trans hrle hab
        · exact hmin x (List.mem_cons_of_mem a hxt)
      · cases l₁ with
        | nil =>
          have hra : a = r := by
            simpa using congrArg (fun l => l.head?) hdec
          exact ⟨[], b :: t, by rw [List.nil_append, ← hra], by simp⟩
        | cons c l₁' =>
          have hc : a = c ∧ t = l₁' ++ r :: l₂ := by
            simpa using hdec
          obtain ⟨hca, ht⟩ := hc
          have hlt_a : r.2 < a.2 := by
            have hsc := hstrict c (List.mem_cons_self c l₁')
            rw [← hca] at hsc
            exact hsc
          refine ⟨a :: b :: l₁', l₂, by rw [ht]; rfl, ?_⟩
          intro x hx
          rcases List.mem_cons.mp hx with hxa | hx'
          · rw [hxa]; exact hlt_a
          rcases List.mem_cons.mp hx' with hxb | hxl
          · rw [hxb]; exact lt_of_lt_of_le hlt_a hab
          · exact hstrict x (List.mem_cons_of_mem c hxl)

/-- Completion of a pass whose winner is `(uid, v)` when the Edge part lookup
succeeds: the gradient color at the map-range position of `v`, and a capture
request exactly when the accept flag is set, `v` is strictly below the
threshold, and `uid` is still in the registry at completion. -/
lemma passCompletion_winner (keys : List String) (dists : List (Option ℚ))
    (accept : Bool) (reg : List String) (cap : Bool) (uid : String) (v : ℚ)
    (h : selectWinner keys dists = some (uid, v)) :
    passCompletion keys dists accept reg cap true =
      TaskOutcome.completed
        ⟨EdgeColor.gradient (map_range v (1/4) MAX_ACCEPT_DISTANCE 0 1),
         if accept ∧ v < MAX_ACCEPT_DISTANCE ∧ uid ∈ reg then some uid else none⟩ := by
  simp [passCompletion, h]

/-- Completion of a pass with no winner when the Edge part lookup succeeds:
neutral white, no capture. -/
lemma passCompletion_none (keys : List String) (dists : List (Option ℚ))
    (accept : Bool) (reg : List String) (cap : Bool)
    (h : selectWinner keys dists = none) :
    passCompletion keys dists accept reg cap true =
      TaskOutcome.completed ⟨EdgeColor.neutralWhite, none⟩ := by
  simp [passCompletion, h]

/-- Completion panics when the Edge part lookup fails, in either branch. -/
lemma passCompletion_panic (keys : List String) (dists : List (Option ℚ))
    (accept : Bool) (reg : List String) (cap : Bool) :
    passCompletion keys dists accept reg cap false = TaskOutcome.panicked := by
  unfold passCompletion
  cases selectWinner keys dists with
  | none => simp
  | some w =>
    obtain ⟨a, b⟩ := w
    simp

/-- C1: a sampling pass over acceptors `keys` with query results `dists` (of
which the successes form `successes keys dists`) selects as winner, if any, a
successful sample with the minimum absolute distance; failed queries are
excluded by construction of the success list, and on equal minimal distances
the first sample in iteration order wins (everything strictly before the winner
has strictly larger distance). -/
theorem selectWinner_first_min (keys : List String) (dists : List (Option ℚ))
    (uid : String) (v : ℚ) (h : selectWinner keys dists = some (uid, v)) :
    (uid, v) ∈ successes keys dists ∧
    (∀ x ∈ successes keys dists, v ≤ x.2) ∧
    ∃ l₁ l₂, successes keys dists = l₁ ++ (uid, v) :: l₂ ∧ ∀ x ∈ l₁, v < x.2 := by
  unfold selectWinner at h
  cases hs : successes keys dists with
  | nil =>
    rw [hs] at h
    simp at h
  | cons a t =>
    rw [hs] at h
    have hv : t.foldl reduceStep a = (uid, v) := Option.some.inj h
    obtain ⟨hmem, hmin, l₁, l₂, hdec, hstrict⟩ := foldl_reduceStep_spec t a
    rw [hv] at hmem hmin hdec hstrict
    exact ⟨hmem, hmin, l₁, l₂, hdec, hstrict⟩

/-- Witness for C1: acceptors A, B, C where the query on A fails and B and C
both return absolute distance 1/10 (B's reply is negative, exercising the
absolute value); the winner is B, the first of the equals. -/
theorem selectWinner_first_min_witness :
    (("B", (1:ℚ)/10) ∈ successes ["A", "B", "C"] [none, some (-(1:ℚ)/10), some ((1:ℚ)/10)]) ∧
    (∀ x ∈ successes ["A", "B", "C"] [none, some (-(1:ℚ)/10), some ((1:ℚ)/10)],
      (1:ℚ)/10 ≤ x.2) ∧
    ∃ l₁ l₂, successes ["A", "B", "C"] [none, some (-(1:ℚ)/10), some ((1:ℚ)/10)] =
        l₁ ++ ("B", (1:ℚ)/10) :: l₂ ∧ ∀ x ∈ l₁, (1:ℚ)/10 < x.2 :=
  selectWinner_first_min ["A", "B", "C"] [none, some (-(1:ℚ)/10), some ((1:ℚ)/10)]
    "B" ((1:ℚ)/10)
    (by norm_num [selectWinner, successes, reduceStep, abs_of_pos, abs_of_neg,
      List.filterMap_cons, List.filterMap_nil, List.foldl_cons, List.foldl_nil])

/-- C2: a stale completion does not check the panel's current state.  A pass
dispatched while the panel was free (captured = false at dispatch) whose
completion arrives after the panel has become Captured (capturedAtCompletion =
true) still sets the edge color and still issues the capture request on the
winner: the spawned closure holds no reference to the panel's captured flag,
so the state is never consulted before applying effects. -/
theorem stale_completion_applies_effects :
    samplingPass false ["A"] true [some ((3:ℚ)/100)] ["A"] true true =
      TaskOutcome.completed
        ⟨EdgeColor.gradient (map_range ((3:ℚ)/100) (1/4) MAX_ACCEPT_DISTANCE 0 1),
         some "A"⟩ := by
  have hw : selectWinner ["A"] [some ((3:ℚ)/100)] = some ("A", (3:ℚ)/100) := by
    norm_num [selectWinner, successes, abs_of_pos,
      List.filterMap_cons, List.filterMap_nil, List.foldl_cons, List.foldl_nil]
  have h1 : samplingPass false ["A"] true [some ((3:ℚ)/100)] ["A"] true true
      = passCompletion ["A"] [some ((3:ℚ)/100)] true ["A"] true true := rfl
  rw [h1, passCompletion_winner _ _ _ _ _ _ _ hw]
  norm_num [MAX_ACCEPT_DISTANCE]

/-- C3 counterexample: a pass with accept = true whose winning distance 0.03 is
strictly below MAX_ACCEPT_DISTANCE, yet no capture request is issued, because
the winning acceptor is no longer in the registry at completion time; the
claimed equivalence fails in the if direction.  The edge color is still
updated. -/
theorem capture_iff_counterexample :
    (3:ℚ)/100 < MAX_ACCEPT_DISTANCE ∧
    samplingPass false ["A"] true [some ((3:ℚ)/100)] [] false true =
      TaskOutcome.completed
        ⟨EdgeColor.gradient (map_range ((3:ℚ)/100) (1/4) MAX_ACCEPT_DISTANCE 0 1),
         none⟩ := by
  constructor
  · norm_num [MAX_ACCEPT_DISTANCE]
  · have hw : selectWinner ["A"] [some ((3:ℚ)/100)] = some ("A", (3:ℚ)/100) := by
      norm_num [selectWinner, successes, abs_of_pos,
      List.filterMap_cons, List.filterMap_nil, List.foldl_cons, List.foldl_nil]
    have h1 : samplingPass false ["A"] true [some ((3:ℚ)/100)] [] false true
        = passCompletion ["A"] [some ((3:ℚ)/100)] true [] false true := rfl
    rw [h1, passCompletion_winner _ _ _ _ _ _ _ hw]
    simp

/-- C3 (amended): when a dispatched pass completes with winner (uid, v) and the
Edge part lookup succeeds, the edge color is always updated to the gradient
sample for that winning distance, and a capture request is issued if and only
if the pass was dispatched with accept = true, the winning absolute distance is
strictly below MAX_ACCEPT_DISTANCE, and the winning acceptor is still present
in the registry at completion time. -/
theorem capture_policy (keys : List String) (dists : List (Option ℚ))
    (accept : Bool) (reg : List String) (cap : Bool) (uid : String) (v : ℚ)
    (h : selectWinner keys dists = some (uid, v)) :
    passCompletion keys dists accept reg cap true =
      TaskOutcome.completed
        ⟨EdgeColor.gradient (map_range v (1/4) MAX_ACCEPT_DISTANCE 0 1),
         if accept ∧ v < MAX_ACCEPT_DISTANCE ∧ uid ∈ reg then some uid else none⟩ :=
  passCompletion_winner keys dists accept reg cap uid v h

/-- Witness for C3 (amended) at the spec scenario of a lone winning distance
0.2 at or above the threshold: the winner is A, no capture is requested, and
the edge color is still set from the gradient at that sample. -/
theorem capture_policy_witness :
    passCompletion ["A", "B"] [some ((2:ℚ)/10), some ((3:ℚ)/10)] true ["A", "B"] false true =
      TaskOutcome.completed
        ⟨EdgeColor.gradient (map_range ((2:ℚ)/10) (1/4) MAX_ACCEPT_DISTANCE 0 1),
         none⟩ := by
  rw [capture_policy ["A", "B"] [some ((2:ℚ)/10), some ((3:ℚ)/10)] true ["A", "B"] false
    "A" ((2:ℚ)/10) (by norm_num [selectWinner, successes, reduceStep, abs_of_pos,
      List.filterMap_cons, List.filterMap_nil, List.foldl_cons, List.foldl_nil])]
  norm_num [MAX_ACCEPT_DISTANCE]

/-- C4: while a panel is Captured the per-frame tick is a no-op: the state
(hence the disabled model and grabbable flags) is unchanged, no grabbable
update can panic, nothing is dispatched, and update_distances itself also
refuses to dispatch for a captured panel whatever the accept flag; entering
Captured via update_state true disables both the model and the grabbable, and
only the release handler sets them again. -/
theorem captured_frame_noop (st₀ st : PanelState) (registry : List String)
    (g : FrameInput) (h : st.captured = true) :
    frame st registry g = some (st, none) ∧
    (∀ a : Bool, update_distances st.captured registry a = none) ∧
    (update_state st₀ true).modelEnabled = false ∧
    (update_state st₀ true).grabEnabled = false := by
  refine ⟨by simp [frame, h], fun a => by simp [update_distances, h], rfl, rfl⟩

/-- Witness for C4 at a concrete captured state. -/
theorem captured_frame_noop_witness :
    frame ⟨true, false, false⟩ ["A"] ⟨false, false, none, true⟩ =
      some (⟨true, false, false⟩, none) ∧
    (∀ a : Bool,
      update_distances (PanelState.mk true false false).captured ["A"] a = none) ∧
    (update_state ⟨true, true, true⟩ true).modelEnabled = false ∧
    (update_state ⟨true, true, true⟩ true).grabEnabled = false :=
  captured_frame_noop ⟨true, true, true⟩ ⟨true, false, false⟩ ["A"]
    ⟨false, false, none, true⟩ rfl

/-- C5: on every tick of a non-captured panel in which the grabbable update
succeeds, the tick dispatches update_distances with exactly the flag
frameAccept, and that flag is set precisely when the grab is not being actively
driven and the instantaneous linear speed is non-null, or the grab has just
stopped this frame. -/
theorem frame_accept_flag (st : PanelState) (registry : List String)
    (g : FrameInput) (h₁ : st.captured = false) (h₂ : g.updateOk = true) :
    frame st registry g = some (st, update_distances st.captured registry (frameAccept g)) ∧
    (frameAccept g = true ↔
      ((g.actorActing = false ∧ g.linearSpeed ≠ none) ∨ g.actorStopped = true)) := by
  constructor
  · simp [frame, h₁, h₂]
  · cases hA : g.actorActing <;> cases hS : g.actorStopped <;> cases hL : g.linearSpeed <;>
      simp [frameAccept, hA, hS, hL]

/-- Witness for C5 at a concrete free panel with non-null speed and no active
grab. -/
theorem frame_accept_flag_witness :
    frame ⟨false, true, true⟩ ["A"] ⟨false, false, some 1, true⟩ =
      some (⟨false, true, true⟩,
        update_distances (PanelState.mk false true true).captured ["A"]
          (frameAccept ⟨false, false, some 1, true⟩)) ∧
    (frameAccept ⟨false, false, some 1, true⟩ = true ↔
      (((FrameInput.mk false false (some 1) true).actorActing = false ∧
        (FrameInput.mk false false (some 1) true).linearSpeed ≠ none) ∨
       (FrameInput.mk false false (some 1) true).actorStopped = true)) :=
  frame_accept_flag ⟨false, true, true⟩ ["A"] ⟨false, false, some 1, true⟩ rfl rfl

/-- C6 counterexample: with zero acceptors at dispatch, update_distances
returns before spawning anything — no task runs, so the edge color is not set
to neutral white (or anything else); in particular the outcome is not the
claimed white-feedback completion. -/
theorem empty_registry_no_dispatch :
    update_distances false [] true = none ∧
    samplingPass false [] true [] [] false true = TaskOutcome.notSpawned ∧
    samplingPass false [] true [] [] false true ≠
      TaskOutcome.completed ⟨EdgeColor.neutralWhite, none⟩ := by
  refine ⟨rfl, rfl, by decide⟩

/-- Successes of a pass in which every query failed: the empty list. -/
lemma successes_all_none (keys : List String) :
    successes keys (keys.map fun _ => none) = [] := by
  induction keys with
  | nil => rfl
  | cons k ks ih => simpa [successes] using ih

/-- C6 (amended): with zero acceptors in the snapshot no pass is spawned, so no
color update and no capture happen regardless of the accept flag; the neutral
opaque white fallback is applied when a dispatched pass over a nonempty
snapshot completes with zero successful replies — and no capture is attempted
then either. -/
theorem empty_snapshot_policy (accept capturedC : Bool) (dists : List (Option ℚ))
    (regC keys : List String) (h : keys ≠ []) :
    samplingPass false [] accept dists regC capturedC true = TaskOutcome.notSpawned ∧
    samplingPass false keys accept (keys.map fun _ => none) regC capturedC true =
      TaskOutcome.completed ⟨EdgeColor.neutralWhite, none⟩ := by
  constructor
  · rfl
  · have hsel : selectWinner keys (keys.map fun _ => none) = none := by
      unfold selectWinner
      rw [successes_all_none]
    have hne : keys.isEmpty = false := by
      cases keys with
      | nil => exact absurd rfl h
      | cons a t => rfl
    have h1 : samplingPass false keys accept (keys.map fun _ => none) regC capturedC true
        = passCompletion keys (keys.map fun _ => none) accept regC capturedC true := by
      simp [samplingPass, update_distances, hne]
    rw [h1, passCompletion_none _ _ _ _ _ hsel]

/-- Witness for C6 (amended) with one acceptor whose query fails. -/
theorem empty_snapshot_policy_witness :
    samplingPass false [] true [] [] false true = TaskOutcome.notSpawned ∧
    samplingPass false ["A"] true (["A"].map fun _ => none) [] false true =
      TaskOutcome.completed ⟨EdgeColor.neutralWhite, none⟩ :=
  empty_snapshot_policy true false [] [] ["A"] (by decide)

/-- C7: failures are not all handled locally.  The per-frame
grabbable.update(info) result is unwrapped, so a failing update on a
non-captured panel panics the frame handler (modelled by the tick evaluating to
none), which stops the frame loop; likewise the spawned task unwraps the
model_part lookup for the Edge and panics when it fails. -/
theorem frame_update_unwrap_panics :
    frame ⟨false, true, true⟩ ["A"] ⟨false, false, none, false⟩ = none ∧
    passCompletion ["A"] [some ((3:ℚ)/100)] false ["A"] false false =
      TaskOutcome.panicked :=
  ⟨by decide, passCompletion_panic _ _ _ _ _⟩

/-- C8: the release handler clears the captured flag, re-enables the model and
the grabbable, and issues exactly two transform commands: the content parent's
transform relative to the panel item is reset to identity, and the panel item's
local transform — relative to its spatial parent, which is the content parent
(interaction handle) — is reset to identity. -/
theorem released_resets (st : PanelState) :
    (released st).1.captured = false ∧
    (released st).1.modelEnabled = true ∧
    (released st).1.grabEnabled = true ∧
    (released st).2 =
      [TransformEffect.setRelativeTransformIdentity NodeRef.contentParent NodeRef.panelItem,
       TransformEffect.setLocalTransformIdentity NodeRef.panelItem] ∧
    panel_spatial_parent = NodeRef.contentParent := by
  refine ⟨rfl, rfl, rfl, rfl, rfl⟩

/-- C9: on_resize sets both the model scale and the field size to
[PANEL_WIDTH, PANEL_WIDTH * (h / w), PANEL_THICKNESS], and it is idempotent.
The hypothesis 0 < w keeps the rational embedding on the domain where it agrees
with the source's f32 division. -/
theorem on_resize_scale_idempotent (st : SizeState) (w h : ℕ) (hw : 0 < w) :
    (on_resize st w h).modelScale =
      (PANEL_WIDTH, PANEL_WIDTH * ((h : ℚ) / (w : ℚ)), PANEL_THICKNESS) ∧
    (on_resize st w h).fieldSize =
      (PANEL_WIDTH, PANEL_WIDTH * ((h : ℚ) / (w : ℚ)), PANEL_THICKNESS) ∧
    on_resize (on_resize st w h) w h = on_resize st w h := by
  refine ⟨rfl, rfl, rfl⟩

/-- Witness for C9 at a 1920 by 1080 toplevel. -/
theorem on_resize_witness :
    (on_resize ⟨(0, 0, 0), (0, 0, 0)⟩ 1920 1080).modelScale =
      (PANEL_WIDTH, PANEL_WIDTH * (((1080 : ℕ) : ℚ) / ((1920 : ℕ) : ℚ)), PANEL_THICKNESS) ∧
    (on_resize ⟨(0, 0, 0), (0, 0, 0)⟩ 1920 1080).fieldSize =
      (PANEL_WIDTH, PANEL_WIDTH * (((1080 : ℕ) : ℚ) / ((1920 : ℕ) : ℚ)), PANEL_THICKNESS) ∧
    on_resize (on_resize ⟨(0, 0, 0), (0, 0, 0)⟩ 1920 1080) 1920 1080 =
      on_resize ⟨(0, 0, 0), (0, 0, 0)⟩ 1920 1080 :=
  on_resize_scale_idempotent ⟨(0, 0, 0), (0, 0, 0)⟩ 1920 1080 (by decide)

/-- C10: if a completed pass issues a capture request on uid, then uid is
present in the registry at completion time — the task re-reads the live
registry and silently drops the capture when the winner has been removed while
the pass was in flight. -/
theorem capture_only_if_present (keys : List String) (dists : List (Option ℚ))
    (accept : Bool) (reg : List String) (cap edgeOk : Bool) (eff : PassEffects)
    (uid : String)
    (h₁ : passCompletion keys dists accept reg cap edgeOk = TaskOutcome.completed eff)
    (h₂ : eff.captureRequest = some uid) :
    uid ∈ reg := by
  cases edgeOk with
  | false =>
    rw [passCompletion_panic] at h₁
    exact absurd h₁ (by simp)
  | true =>
    cases hsel : selectWinner keys dists with
    | none =>
      rw [passCompletion_none _ _ _ _ _ hsel] at h₁
      have heff := TaskOutcome.completed.inj h₁
      rw [← heff] at h₂
      simp at h₂
    | some w =>
      obtain ⟨wk, wv⟩ := w
      rw [passCompletion_winner _ _ _ _ _ _ _ hsel] at h₁
      have heff := TaskOutcome.completed.inj h₁
      rw [← heff] at h₂
      by_cases hc : (accept = true) ∧ wv < MAX_ACCEPT_DISTANCE ∧ wk ∈ reg
      · rw [if_pos hc] at h₂
        have h₃ : wk = uid := Option.some.inj h₂
        rw [← h₃]
        exact hc.2.2
      · rw [if_neg hc] at h₂
        exact absurd h₂ (by simp)

/-- Witness for C10: a completed pass that captures A, with A present in the
registry at completion. -/
theorem capture_only_if_present_witness : "A" ∈ ["A"] :=
  capture_only_if_present ["A"] [some ((3:ℚ)/100)] true ["A"] false true
    ⟨EdgeColor.gradient (map_range ((3:ℚ)/100) (1/4) MAX_ACCEPT_DISTANCE 0 1), some "A"⟩
    "A"
    (by
      have hw : selectWinner ["A"] [some ((3:ℚ)/100)] = some ("A", (3:ℚ)/100) := by
        norm_num [selectWinner, successes, abs_of_pos,
      List.filterMap_cons, List.filterMap_nil, List.foldl_cons, List.foldl_nil]
      rw [passCompletion_winner _ _ _ _ _ _ _ hw]
      norm_num [MAX_ACCEPT_DISTANCE])
    rfl

end Orbit
